import Mathlib

/-
Verification of the meeting-scheduling core of the unilinkapi backend:
the Availability Calculator (GET /counselors/:counselorId/available-slots,
src/routes/LeadRoutes.js) and the Conflict-Checked Scheduler
(POST /leads/:leadId/meetings in src/routes/LeadRoutes.js and
POST /students/:studentId/meetings in src/routes/StudentRoutes.js).

The JavaScript handlers are shallowly embedded as pure Lean functions over
an explicit Meeting Store (a list of meeting rows).  JavaScript numbers
produced by parseInt are modelled as `Option Int`, with `none` playing the
role of NaN: every comparison involving `none` is false and arithmetic on
`none` yields `none`, exactly as NaN behaves in JavaScript.  External
collaborators (the assignment relation and the subject directory) are
passed in as arguments, matching the spec's collaborator interfaces.
-/

namespace UniLink

/-- JS strict less-than on possibly-NaN numbers: any comparison with NaN is false. -/
def jsLt : Option Int → Option Int → Bool
  | some a, some b => decide (a < b)
  | _, _ => false

/-- JS less-or-equal on possibly-NaN numbers. -/
def jsLe : Option Int → Option Int → Bool
  | some a, some b => decide (a ≤ b)
  | _, _ => false

/-- JS strict greater-than on possibly-NaN numbers. -/
def jsGt : Option Int → Option Int → Bool
  | some a, some b => decide (b < a)
  | _, _ => false

/-- JS greater-or-equal on possibly-NaN numbers. -/
def jsGe : Option Int → Option Int → Bool
  | some a, some b => decide (b ≤ a)
  | _, _ => false

/-- JS addition: NaN propagates. -/
def jsAdd : Option Int → Option Int → Option Int
  | some a, some b => some (a + b)
  | _, _ => none

/-- JS multiplication: NaN propagates. -/
def jsMul : Option Int → Option Int → Option Int
  | some a, some b => some (a * b)
  | _, _ => none

/-- JS `String.prototype.split(sep)` on a character list: always returns at
least one piece, and the empty string splits to one empty piece. -/
def splitCharsOn (sep : Char) : List Char → List (List Char)
  | [] => [[]]
  | c :: cs =>
    match splitCharsOn sep cs with
    | [] => [[]]
    | r :: rs => if c = sep then [] :: r :: rs else (c :: r) :: rs

/-- Whitespace skipped by JS parseInt before reading digits. -/
def isSpaceChar (c : Char) : Bool :=
  c = ' ' || c = '\t' || c = '\n' || c = '\r'

/-- Numeric value of a decimal digit character. -/
def digitVal (c : Char) : Nat := c.toNat - '0'.toNat

/-- Decimal value of a digit string. -/
def natOfDigits (cs : List Char) : Nat :=
  cs.foldl (fun acc c => acc * 10 + digitVal c) 0

/-- Read the leading decimal-digit prefix; NaN (`none`) when there is none. -/
def parseIntCore (cs : List Char) : Option Nat :=
  let ds := cs.takeWhile Char.isDigit
  if ds.isEmpty then none else some (natOfDigits ds)

/-- JS `parseInt(s, 10)` on a character list: skip whitespace, optional sign,
then the digit prefix; NaN (`none`) if no digits follow. -/
def parseIntChars (cs : List Char) : Option Int :=
  match cs.dropWhile isSpaceChar with
  | '-' :: rest => (parseIntCore rest).map (fun n => -(n : Int))
  | '+' :: rest => (parseIntCore rest).map (fun n => (n : Int))
  | rest => (parseIntCore rest).map (fun n => (n : Int))

/-- JS `parseInt(s, 10)` on a string. -/
def parseIntJS (s : String) : Option Int := parseIntChars s.toList

/-- The handlers' time-to-minutes conversion:
`const [hours, minutes] = t.split(':')` followed by
`parseInt(hours) * 60 + parseInt(minutes)`.  When the split yields fewer than
two pieces, `minutes` is undefined and the whole sum is NaN (`none`). -/
def parseTimeOffset (t : String) : Option Int :=
  match splitCharsOn ':' t.toList with
  | h :: m :: _ => jsAdd (jsMul (parseIntChars h) (some 60)) (parseIntChars m)
  | _ => none

/-- A row of the `counselor_meetings` table, as written by the scheduling
endpoints.  `subject_id` holds the `lead_id` (lead meetings) or the `user_id`
(student meetings); `student_name` and `student_id` are the denormalized
snapshot columns of the INSERT. -/
structure Meeting where
  counselor_id : String
  subject_id : String
  student_name : String
  student_id : String
  meeting_date : String
  meeting_time : String
  duration_minutes : Int
  status : String
  notes : Option String
  deriving DecidableEq, Repr

/-- An HTTP JSON envelope: status code plus the `success` flag and `message`. -/
structure HttpResp where
  status : Nat
  success : Bool
  message : String
  deriving DecidableEq, Repr

/-- Start minute offset of a stored meeting, recomputed from its stored
time string exactly as the handlers do. -/
def mStartOf (m : Meeting) : Option Int := parseTimeOffset m.meeting_time

/-- End minute offset of a stored meeting: start plus the stored
`duration_minutes` (used as a number, not re-parsed). -/
def mEndOf (m : Meeting) : Option Int :=
  jsAdd (mStartOf m) (some m.duration_minutes)

/-- The SQL filter used by both the conflict query and the availability query:
same counselor, same date, `status != 'Cancelled'`. -/
def listActiveMeetings (store : List Meeting) (cid date : String) : List Meeting :=
  store.filter fun m =>
    m.counselor_id == cid && m.meeting_date == date && m.status != "Cancelled"

/-- The handlers' overlap test between the proposed interval `[s, e)` and an
existing interval `[ms, me)`, written with JS (NaN-aware) comparisons exactly
as in the source. -/
def overlapsJS (s e ms me : Option Int) : Bool :=
  (jsGe s ms && jsLt s me) || (jsGt e ms && jsLe e me) || (jsLe s ms && jsGe e me)

/-- The conflict loop: first existing meeting (in query order) that overlaps. -/
def findConflict (ms : List Meeting) (s e : Option Int) : Option Meeting :=
  ms.find? fun m => overlapsJS s e (mStartOf m) (mEndOf m)

/-- The 409 message built by the handlers from the colliding meeting. -/
def conflictMsg (m : Meeting) : String :=
  "This time slot conflicts with an existing meeting from " ++ m.meeting_time ++
    " (" ++ toString m.duration_minutes ++ " minutes)"

/-- `notes || null` in the INSERT: falsy notes become SQL NULL. -/
def normNotes : Option String → Option String
  | some s => if s = "" then none else some s
  | none => none

/-- POST /leads/:leadId/meetings (src/routes/LeadRoutes.js).  `assigned` is
the result of the assignment query, `leadName` the `full_name` of the lead
row when it exists.  Missing request fields are modelled by their falsy
values (empty string, 0), which the handler's truthiness test conflates with
absence.  Returns the HTTP response and the store after commit/rollback. -/
def scheduleLeadMeeting (store : List Meeting) (leadId : String)
    (assigned : Bool) (leadName : Option String)
    (counselorId meetingDate meetingTime : String) (durationMinutes : Int)
    (notes : Option String) : HttpResp × List Meeting :=
  if counselorId = "" ∨ meetingDate = "" ∨ meetingTime = "" ∨ durationMinutes = 0 then
    (⟨400, false, "All required fields must be provided"⟩, store)
  else if durationMinutes < 15 ∨ durationMinutes > 480 then
    (⟨400, false, "Duration must be between 15 minutes and 8 hours"⟩, store)
  else if ¬ assigned then
    (⟨400, false, "This counselor is not assigned to this lead"⟩, store)
  else
    match leadName with
    | none => (⟨404, false, "Lead not found"⟩, store)
    | some fullName =>
      let startMinutes := parseTimeOffset meetingTime
      let endMinutes := jsAdd startMinutes (some durationMinutes)
      if jsLt startMinutes (some 540) || jsGt endMinutes (some 1020) then
        (⟨400, false, "Meetings must be scheduled between 9:00 AM and 5:00 PM"⟩, store)
      else
        match findConflict (listActiveMeetings store counselorId meetingDate)
            startMinutes endMinutes with
        | some m => (⟨409, false, conflictMsg m⟩, store)
        | none =>
          (⟨201, true, "Meeting scheduled successfully"⟩,
            store ++ [⟨counselorId, leadId, fullName, "LEAD-" ++ leadId,
              meetingDate, meetingTime, durationMinutes, "Scheduled",
              normNotes notes⟩])

/-- POST /students/:studentId/meetings (src/routes/StudentRoutes.js).
`studentInfo` is `(name, student_id)` from the users row when it exists.
Note: unlike the lead endpoint, this handler has no duration bound check. -/
def scheduleStudentMeeting (store : List Meeting) (studentId : String)
    (assigned : Bool) (studentInfo : Option (String × String))
    (counselorId meetingDate meetingTime : String) (durationMinutes : Int)
    (notes : Option String) : HttpResp × List Meeting :=
  if counselorId = "" ∨ meetingDate = "" ∨ meetingTime = "" ∨ durationMinutes = 0 then
    (⟨400, false, "All required fields must be provided"⟩, store)
  else if ¬ assigned then
    (⟨400, false, "This counselor is not assigned to this student"⟩, store)
  else
    match studentInfo with
    | none => (⟨404, false, "Student not found"⟩, store)
    | some info =>
      let startMinutes := parseTimeOffset meetingTime
      let endMinutes := jsAdd startMinutes (some durationMinutes)
      if jsLt startMinutes (some 540) || jsGt endMinutes (some 1020) then
        (⟨400, false, "Meetings must be scheduled between 9:00 AM and 5:00 PM"⟩, store)
      else
        match findConflict (listActiveMeetings store counselorId meetingDate)
            startMinutes endMinutes with
        | some m => (⟨409, false, conflictMsg m⟩, store)
        | none =>
          (⟨201, true, "Meeting scheduled successfully"⟩,
            store ++ [⟨counselorId, studentId, info.1, info.2,
              meetingDate, meetingTime, durationMinutes, "Scheduled",
              normNotes notes⟩])

/-- Comparison on possibly-NaN start offsets used to state orderings;
`none` sorts first. -/
def obLEb : Option Int → Option Int → Bool
  | some x, some y => decide (x ≤ y)
  | none, _ => true
  | some _, none => false

/-- Ordering of meeting rows by start time. -/
def timeLE (a b : Meeting) : Prop := obLEb (mStartOf a) (mStartOf b) = true

instance : DecidableRel timeLE := fun a b => by
  unfold timeLE; infer_instance

instance : IsTotal Meeting timeLE := by
  constructor
  intro a b
  unfold timeLE obLEb
  rcases mStartOf a with _ | x <;> rcases mStartOf b with _ | y <;> simp
  omega

instance : IsTrans Meeting timeLE := by
  constructor
  intro a b c
  unfold timeLE obLEb
  rcases mStartOf a with _ | x <;> rcases mStartOf b with _ | y <;>
    rcases mStartOf c with _ | z <;> simp
  omega

/-- Modelled from the spec: the availability query's `ORDER BY meeting_time`
runs inside the external Meeting Store (the MySQL TIME column, whose schema is
not part of the repository); per the spec's Availability contract the rows
come back ordered by start time ascending, which we model as a sort by the
parsed start offset. -/
def sortByTime (ms : List Meeting) : List Meeting :=
  List.insertionSort timeLE ms

/-- The availability handler's mapping of rows to
`{start, end}` minute-offset slots. -/
def bookedSlots (store : List Meeting) (cid date : String) :
    List (Option Int × Option Int) :=
  (sortByTime (listActiveMeetings store cid date)).map fun m =>
    (mStartOf m, mEndOf m)

/-- GET /counselors/:counselorId/available-slots (src/routes/LeadRoutes.js).
The only validation is the truthiness test on the `date` query parameter.
The 200 response carries no message field; we model it as the empty string. -/
def availableSlots (store : List Meeting) (counselorId date : String) :
    HttpResp × List (Option Int × Option Int) :=
  if date = "" then
    (⟨400, false, "Date parameter is required"⟩, [])
  else
    (⟨200, true, ""⟩, bookedSlots store counselorId date)

/-- A scheduling request against either endpoint, bundling the collaborator
answers (assignment, subject directory) observed by that request. -/
inductive SchedOp where
  | lead (leadId : String) (assigned : Bool) (leadName : Option String)
      (counselorId meetingDate meetingTime : String) (durationMinutes : Int)
      (notes : Option String)
  | student (studentId : String) (assigned : Bool)
      (studentInfo : Option (String × String))
      (counselorId meetingDate meetingTime : String) (durationMinutes : Int)
      (notes : Option String)

/-- Dispatch a scheduling request to its handler. -/
def applyOp (store : List Meeting) : SchedOp → HttpResp × List Meeting
  | .lead lid a nm cid d t dur n =>
      scheduleLeadMeeting store lid a nm cid d t dur n
  | .student sid a info cid d t dur n =>
      scheduleStudentMeeting store sid a info cid d t dur n

/-- Run a sequence of scheduling requests, threading the store. -/
def runOps (store : List Meeting) (ops : List SchedOp) : List Meeting :=
  ops.foldl (fun st op => (applyOp st op).2) store

/-- Counselor id of a request. -/
def SchedOp.counselorId : SchedOp → String
  | .lead _ _ _ cid _ _ _ _ => cid
  | .student _ _ _ cid _ _ _ _ => cid

/-- Meeting date of a request. -/
def SchedOp.meetingDate : SchedOp → String
  | .lead _ _ _ _ d _ _ _ => d
  | .student _ _ _ _ d _ _ _ => d

/-- Meeting time string of a request. -/
def SchedOp.meetingTime : SchedOp → String
  | .lead _ _ _ _ _ t _ _ => t
  | .student _ _ _ _ _ t _ _ => t

/-- Duration of a request. -/
def SchedOp.durationMinutes : SchedOp → Int
  | .lead _ _ _ _ _ _ dur _ => dur
  | .student _ _ _ _ _ _ dur _ => dur

/-- Display name of the request's subject as the collaborator reports it. -/
def SchedOp.subjectName : SchedOp → Option String
  | .lead _ _ nm _ _ _ _ _ => nm
  | .student _ _ info _ _ _ _ _ => info.map Prod.fst

/-- The row the request would insert on success. -/
def SchedOp.newRow : SchedOp → Meeting
  | .lead lid _ nm cid d t dur n =>
      ⟨cid, lid, nm.getD "", "LEAD-" ++ lid, d, t, dur, "Scheduled", normNotes n⟩
  | .student sid _ info cid d t dur n =>
      ⟨cid, sid, (info.getD ("", "")).1, (info.getD ("", "")).2, d, t, dur,
        "Scheduled", normNotes n⟩

/-- All checks before the time-dependent ones: field presence, the lead
endpoint's duration bound, assignment, and subject existence. -/
def SchedOp.passesPreTimeChecks : SchedOp → Bool
  | .lead _ a nm cid d t dur _ =>
      !(cid == "" || d == "" || t == "" || dur == 0) &&
        !(dur < 15 || dur > 480) && a && nm.isSome
  | .student _ a info cid d t dur _ =>
      !(cid == "" || d == "" || t == "" || dur == 0) && a && info.isSome

/-- All checks before the overlap check: the pre-time checks plus the
business-hours window on the parsed offsets. -/
def SchedOp.passesPreChecks (op : SchedOp) : Bool :=
  op.passesPreTimeChecks &&
    !(jsLt (parseTimeOffset op.meetingTime) (some 540) ||
      jsGt (jsAdd (parseTimeOffset op.meetingTime) (some op.durationMinutes))
        (some 1020))

/-- The common tail of both scheduling handlers once every check before the
overlap check has passed: scan for a conflict, abort with 409 on the first
one, otherwise insert the row. -/
def overlapTail (store : List Meeting) (cid d : String) (S E : Option Int)
    (row : Meeting) : HttpResp × List Meeting :=
  match findConflict (listActiveMeetings store cid d) S E with
  | some m => (⟨409, false, conflictMsg m⟩, store)
  | none => (⟨201, true, "Meeting scheduled successfully"⟩, store ++ [row])

/-- Membership of a minute `x` in the half-open interval of a stored meeting;
a meeting whose time fails to parse (NaN) has an empty interval, as NaN
comparisons are all false in JS. -/
def inInterval (x : Int) (m : Meeting) : Prop :=
  ∃ s, mStartOf m = some s ∧ s ≤ x ∧ x < s + m.duration_minutes

/-- The half-open intervals of two meetings are disjoint. -/
def intervalsDisjoint (m1 m2 : Meeting) : Prop :=
  ∀ x : Int, ¬ (inInterval x m1 ∧ inInterval x m2)

/-- No-double-booking, phrased per pair: meetings sharing counselor and date,
both non-cancelled, occupy disjoint intervals. -/
def MeetingsCompatible (m1 m2 : Meeting) : Prop :=
  m1.counselor_id = m2.counselor_id → m1.meeting_date = m2.meeting_date →
    m1.status ≠ "Cancelled" → m2.status ≠ "Cancelled" → intervalsDisjoint m1 m2

/-- The Meeting Store invariant P1. -/
def StoreInv (store : List Meeting) : Prop :=
  store.Pairwise MeetingsCompatible

/-- P1 as the spec phrases it: for every counselor and date, the non-cancelled
meetings have pairwise disjoint intervals. -/
def DisjointSchedule (store : List Meeting) : Prop :=
  ∀ cid date, (listActiveMeetings store cid date).Pairwise intervalsDisjoint

lemma intervalsDisjoint_symm {m1 m2 : Meeting} (h : intervalsDisjoint m1 m2) :
    intervalsDisjoint m2 m1 := by
  intro x hx
  exact h x ⟨hx.2, hx.1⟩

lemma mem_listActiveMeetings {store : List Meeting} {cid date : String} {m : Meeting} :
    m ∈ listActiveMeetings store cid date ↔
      m ∈ store ∧ m.counselor_id = cid ∧ m.meeting_date = date ∧
        m.status ≠ "Cancelled" := by
  simp [listActiveMeetings, List.mem_filter, and_assoc]

lemma disjoint_of_not_overlaps {m1 m2 : Meeting}
    (h : overlapsJS (mStartOf m1) (mEndOf m1) (mStartOf m2) (mEndOf m2) = false) :
    intervalsDisjoint m1 m2 := by
  intro x hx
  obtain ⟨⟨s1, hs1, h1a, h1b⟩, ⟨s2, hs2, h2a, h2b⟩⟩ := hx
  unfold overlapsJS mEndOf at h
  rw [hs1, hs2] at h
  simp [jsAdd, jsGe, jsLt, jsGt, jsLe] at h
  omega

lemma overlaps_of_eq_slot {m : Meeting} {S : Int} {D : Int}
    (hs : mStartOf m = some S) (he : mEndOf m = some (S + D)) :
    overlapsJS (some S) (some (S + D)) (mStartOf m) (mEndOf m) = true := by
  rw [hs, he]
  simp [overlapsJS, jsLe, jsGe]

lemma scheduleLead_cases (store : List Meeting) (lid : String) (a : Bool)
    (nm : Option String) (cid d t : String) (dur : Int) (n : Option String) :
    ((scheduleLeadMeeting store lid a nm cid d t dur n).2 = store ∧
      (scheduleLeadMeeting store lid a nm cid d t dur n).1.success = false ∧
      ((scheduleLeadMeeting store lid a nm cid d t dur n).1.status = 400 ∨
       (scheduleLeadMeeting store lid a nm cid d t dur n).1.status = 404 ∨
       (scheduleLeadMeeting store lid a nm cid d t dur n).1.status = 409)) ∨
    ((SchedOp.lead lid a nm cid d t dur n).passesPreChecks = true ∧
      findConflict (listActiveMeetings store cid d) (parseTimeOffset t)
        (jsAdd (parseTimeOffset t) (some dur)) = none ∧
      scheduleLeadMeeting store lid a nm cid d t dur n =
        (⟨201, true, "Meeting scheduled successfully"⟩,
          store ++ [(SchedOp.lead lid a nm cid d t dur n).newRow])) := by
  unfold scheduleLeadMeeting
  split
  · exact Or.inl ⟨rfl, rfl, Or.inl rfl⟩
  split
  · exact Or.inl ⟨rfl, rfl, Or.inl rfl⟩
  split
  · exact Or.inl ⟨rfl, rfl, Or.inl rfl⟩
  split
  · exact Or.inl ⟨rfl, rfl, Or.inr (Or.inl rfl)⟩
  next h1 h2 h3 nmv v =>
    dsimp only
    split
    · exact Or.inl ⟨rfl, rfl, Or.inl rfl⟩
    next hbh =>
      split
      · exact Or.inl ⟨rfl, rfl, Or.inr (Or.inr rfl)⟩
      next hfc =>
        right
        push_neg at h1 h2
        have ha : a = true := not_not.mp h3
        have hbh' := Bool.eq_false_iff.mpr hbh
        refine ⟨?_, hfc, ?_⟩
        · simp only [SchedOp.passesPreChecks, SchedOp.passesPreTimeChecks,
            SchedOp.meetingTime, SchedOp.durationMinutes]
          simp [h1.1, h1.2.1, h1.2.2.1, h1.2.2.2, ha, hbh']
          omega
        · simp [SchedOp.newRow]

lemma scheduleStudent_cases (store : List Meeting) (sid : String) (a : Bool)
    (info : Option (String × String)) (cid d t : String) (dur : Int)
    (n : Option String) :
    ((scheduleStudentMeeting store sid a info cid d t dur n).2 = store ∧
      (scheduleStudentMeeting store sid a info cid d t dur n).1.success = false ∧
      ((scheduleStudentMeeting store sid a info cid d t dur n).1.status = 400 ∨
       (scheduleStudentMeeting store sid a info cid d t dur n).1.status = 404 ∨
       (scheduleStudentMeeting store sid a info cid d t dur n).1.status = 409)) ∨
    ((SchedOp.student sid a info cid d t dur n).passesPreChecks = true ∧
      findConflict (listActiveMeetings store cid d) (parseTimeOffset t)
        (jsAdd (parseTimeOffset t) (some dur)) = none ∧
      scheduleStudentMeeting store sid a info cid d t dur n =
        (⟨201, true, "Meeting scheduled successfully"⟩,
          store ++ [(SchedOp.student sid a info cid d t dur n).newRow])) := by
  unfold scheduleStudentMeeting
  split
  · exact Or.inl ⟨rfl, rfl, Or.inl rfl⟩
  split
  · exact Or.inl ⟨rfl, rfl, Or.inl rfl⟩
  split
  · exact Or.inl ⟨rfl, rfl, Or.inr (Or.inl rfl)⟩
  next h1 h3 infov v =>
    dsimp only
    split
    · exact Or.inl ⟨rfl, rfl, Or.inl rfl⟩
    next hbh =>
      split
      · exact Or.inl ⟨rfl, rfl, Or.inr (Or.inr rfl)⟩
      next hfc =>
        right
        push_neg at h1
        have ha : a = true := not_not.mp h3
        have hbh' := Bool.eq_false_iff.mpr hbh
        refine ⟨?_, hfc, ?_⟩
        · simp only [SchedOp.passesPreChecks, SchedOp.passesPreTimeChecks,
            SchedOp.meetingTime, SchedOp.durationMinutes]
          simp [h1.1, h1.2.1, h1.2.2.1, h1.2.2.2, ha, hbh']
        · simp [SchedOp.newRow]

lemma applyOp_cases (store : List Meeting) (op : SchedOp) :
    ((applyOp store op).2 = store ∧ (applyOp store op).1.success = false ∧
      ((applyOp store op).1.status = 400 ∨ (applyOp store op).1.status = 404 ∨
        (applyOp store op).1.status = 409)) ∨
    (op.passesPreChecks = true ∧
      findConflict (listActiveMeetings store op.counselorId op.meetingDate)
        (parseTimeOffset op.meetingTime)
        (jsAdd (parseTimeOffset op.meetingTime) (some op.durationMinutes)) = none ∧
      applyOp store op =
        (⟨201, true, "Meeting scheduled successfully"⟩, store ++ [op.newRow])) := by
  cases op with
  | lead lid a nm cid d t dur n =>
    simpa [applyOp, SchedOp.counselorId, SchedOp.meetingDate, SchedOp.meetingTime,
      SchedOp.durationMinutes] using scheduleLead_cases store lid a nm cid d t dur n
  | student sid a info cid d t dur n =>
    simpa [applyOp, SchedOp.counselorId, SchedOp.meetingDate, SchedOp.meetingTime,
      SchedOp.durationMinutes] using scheduleStudent_cases store sid a info cid d t dur n

lemma passesPreChecks_lead {lid : String} {a : Bool} {nm : Option String}
    {cid d t : String} {dur : Int} {n : Option String}
    (h : (SchedOp.lead lid a nm cid d t dur n).passesPreChecks = true) :
    cid ≠ "" ∧ d ≠ "" ∧ t ≠ "" ∧ dur ≠ 0 ∧ 15 ≤ dur ∧ dur ≤ 480 ∧ a = true ∧
      (∃ v, nm = some v) ∧
      (jsLt (parseTimeOffset t) (some 540) ||
        jsGt (jsAdd (parseTimeOffset t) (some dur)) (some 1020)) = false := by
  simp only [SchedOp.passesPreChecks, SchedOp.passesPreTimeChecks,
    SchedOp.meetingTime, SchedOp.durationMinutes, Bool.and_eq_true,
    Bool.not_eq_true', Bool.or_eq_false_iff, beq_eq_false_iff_ne, ne_eq,
    decide_eq_false_iff_not, not_lt, Option.isSome_iff_exists] at h
  obtain ⟨⟨⟨⟨⟨⟨⟨hc, hd'⟩, ht'⟩, h0⟩, hdr⟩, ha⟩, v, hnm⟩, hb1, hb2⟩ := h
  exact ⟨hc, hd', ht', h0, hdr.1, hdr.2, ha, ⟨v, hnm⟩, by simp [hb1, hb2]⟩

lemma passesPreChecks_student {sid : String} {a : Bool}
    {info : Option (String × String)} {cid d t : String} {dur : Int}
    {n : Option String}
    (h : (SchedOp.student sid a info cid d t dur n).passesPreChecks = true) :
    cid ≠ "" ∧ d ≠ "" ∧ t ≠ "" ∧ dur ≠ 0 ∧ a = true ∧
      (∃ v, info = some v) ∧
      (jsLt (parseTimeOffset t) (some 540) ||
        jsGt (jsAdd (parseTimeOffset t) (some dur)) (some 1020)) = false := by
  simp only [SchedOp.passesPreChecks, SchedOp.passesPreTimeChecks,
    SchedOp.meetingTime, SchedOp.durationMinutes, Bool.and_eq_true,
    Bool.not_eq_true', Bool.or_eq_false_iff, beq_eq_false_iff_ne, ne_eq,
    Option.isSome_iff_exists] at h
  obtain ⟨⟨⟨⟨⟨⟨hc, hd'⟩, ht'⟩, h0⟩, ha⟩, v, hnm⟩, hb1, hb2⟩ := h
  exact ⟨hc, hd', ht', h0, ha, ⟨v, hnm⟩, by simp [hb1, hb2]⟩

lemma scheduleLead_eq_of_pre (store : List Meeting) (lid : String) (a : Bool)
    (v : String) (cid d t : String) (dur : Int) (n : Option String)
    (hcid : cid ≠ "") (hd : d ≠ "") (ht : t ≠ "") (hdur0 : dur ≠ 0)
    (hdur1 : 15 ≤ dur) (hdur2 : dur ≤ 480) (ha : a = true) :
    scheduleLeadMeeting store lid a (some v) cid d t dur n =
      if (jsLt (parseTimeOffset t) (some 540) ||
          jsGt (jsAdd (parseTimeOffset t) (some dur)) (some 1020)) = true then
        (⟨400, false, "Meetings must be scheduled between 9:00 AM and 5:00 PM"⟩, store)
      else
        match findConflict (listActiveMeetings store cid d) (parseTimeOffset t)
            (jsAdd (parseTimeOffset t) (some dur)) with
        | some m => (⟨409, false, conflictMsg m⟩, store)
        | none =>
          (⟨201, true, "Meeting scheduled successfully"⟩,
            store ++ [⟨cid, lid, v, "LEAD-" ++ lid, d, t, dur, "Scheduled",
              normNotes n⟩]) := by
  unfold scheduleLeadMeeting
  rw [if_neg (by tauto), if_neg (by omega), if_neg (by simp [ha])]

lemma scheduleStudent_eq_of_pre (store : List Meeting) (sid : String) (a : Bool)
    (v : String × String) (cid d t : String) (dur : Int) (n : Option String)
    (hcid : cid ≠ "") (hd : d ≠ "") (ht : t ≠ "") (hdur0 : dur ≠ 0)
    (ha : a = true) :
    scheduleStudentMeeting store sid a (some v) cid d t dur n =
      if (jsLt (parseTimeOffset t) (some 540) ||
          jsGt (jsAdd (parseTimeOffset t) (some dur)) (some 1020)) = true then
        (⟨400, false, "Meetings must be scheduled between 9:00 AM and 5:00 PM"⟩, store)
      else
        match findConflict (listActiveMeetings store cid d) (parseTimeOffset t)
            (jsAdd (parseTimeOffset t) (some dur)) with
        | some m => (⟨409, false, conflictMsg m⟩, store)
        | none =>
          (⟨201, true, "Meeting scheduled successfully"⟩,
            store ++ [⟨cid, sid, v.1, v.2, d, t, dur, "Scheduled",
              normNotes n⟩]) := by
  unfold scheduleStudentMeeting
  rw [if_neg (by tauto), if_neg (by simp [ha])]

lemma findConflict_none_iff {ms : List Meeting} {s e : Option Int} :
    findConflict ms s e = none ↔
      ∀ m ∈ ms, overlapsJS s e (mStartOf m) (mEndOf m) = false := by
  simp [findConflict, List.find?_eq_none]

lemma findConflict_perm_none {ms ms' : List Meeting} {s e : Option Int}
    (hp : ms.Perm ms') :
    findConflict ms s e = none ↔ findConflict ms' s e = none := by
  rw [findConflict_none_iff, findConflict_none_iff]
  constructor <;> intro h m hm
  · exact h m (hp.mem_iff.mpr hm)
  · exact h m (hp.mem_iff.mp hm)

lemma newRow_fields (op : SchedOp) :
    op.newRow.counselor_id = op.counselorId ∧
      op.newRow.meeting_date = op.meetingDate ∧
      op.newRow.meeting_time = op.meetingTime ∧
      op.newRow.duration_minutes = op.durationMinutes ∧
      op.newRow.status = "Scheduled" := by
  cases op <;> simp [SchedOp.newRow, SchedOp.counselorId, SchedOp.meetingDate,
    SchedOp.meetingTime, SchedOp.durationMinutes]

lemma storeInv_of_disjointSchedule {store : List Meeting}
    (h : DisjointSchedule store) : StoreInv store := by
  rw [StoreInv, List.pairwise_iff_forall_sublist]
  intro a b hab
  intro hcid hdate hs1 hs2
  have hsub := hab.filter
    (fun m => m.counselor_id == a.counselor_id &&
      m.meeting_date == a.meeting_date && m.status != "Cancelled")
  have hfab : List.filter
      (fun m => m.counselor_id == a.counselor_id &&
        m.meeting_date == a.meeting_date && m.status != "Cancelled") [a, b] =
      [a, b] := by
    simp [List.filter_cons, List.filter_nil, ← hcid, ← hdate, hs1, hs2,
      bne_iff_ne]
  rw [hfab] at hsub
  exact List.pairwise_iff_forall_sublist.mp
    (h a.counselor_id a.meeting_date) hsub

lemma disjointSchedule_of_storeInv {store : List Meeting}
    (h : StoreInv store) : DisjointSchedule store := by
  intro cid date
  refine (h.filter _).imp_of_mem ?_
  intro a b ha hb hab
  have ha' := mem_listActiveMeetings.mp ha
  have hb' := mem_listActiveMeetings.mp hb
  exact hab (ha'.2.1.trans hb'.2.1.symm) (ha'.2.2.1.trans hb'.2.2.1.symm)
    ha'.2.2.2 hb'.2.2.2

lemma storeInv_applyOp {store : List Meeting} (op : SchedOp)
    (h : StoreInv store) : StoreInv (applyOp store op).2 := by
  rcases applyOp_cases store op with ⟨hst, _⟩ | ⟨_, hfc, heq⟩
  · rw [hst]; exact h
  · rw [heq]
    rw [StoreInv, List.pairwise_append]
    refine ⟨h, List.pairwise_singleton _ _, ?_⟩
    intro m hm r hr
    rw [List.mem_singleton] at hr
    subst hr
    intro hcid hdate hs1 hs2
    obtain ⟨hrc, hrd, hrt, hrdm, _⟩ := newRow_fields op
    have hmem : m ∈ listActiveMeetings store op.counselorId op.meetingDate := by
      rw [mem_listActiveMeetings]
      exact ⟨hm, by rw [hcid, hrc], by rw [hdate, hrd], hs1⟩
    have hov := findConflict_none_iff.mp hfc m hmem
    refine intervalsDisjoint_symm (disjoint_of_not_overlaps ?_)
    rw [mStartOf, hrt, mEndOf, mStartOf, hrt, hrdm]
    exact hov

lemma storeInv_runOps {store : List Meeting} (ops : List SchedOp)
    (h : StoreInv store) : StoreInv (runOps store ops) := by
  induction ops generalizing store with
  | nil => exact h
  | cons op ops ih =>
    rw [runOps, List.foldl_cons]
    exact ih (storeInv_applyOp op h)

/-- C1 (P1, no double-booking): for every sequence of scheduling operations
(lead or student endpoint) run against an initially invariant-satisfying
Meeting Store, the meetings with status not Cancelled of any fixed counselor
and date keep pairwise disjoint half-open
`[startMinuteOffset, startMinuteOffset + durationMinutes)` intervals.
Failed operations leave the store unchanged, so exactly the successfully
completed ones contribute. -/
theorem C1_no_double_booking (store : List Meeting) (ops : List SchedOp)
    (h : DisjointSchedule store) : DisjointSchedule (runOps store ops) :=
  disjointSchedule_of_storeInv
    (storeInv_runOps ops (storeInv_of_disjointSchedule h))

/-- Witness for C1: two bookings applied to the empty store keep the
invariant. -/
theorem C1_no_double_booking_witness : DisjointSchedule (runOps []
    [SchedOp.lead "5" true (some "Alice") "c1" "2024-06-01" "10:00" 30 none,
     SchedOp.student "9" true (some ("Bob", "STU-001")) "c1" "2024-06-01"
       "11:00" 30 none]) :=
  C1_no_double_booking [] _ (by intro cid date; simp [listActiveMeetings])

/-- C2 (P3, duration bound) fails on the code: the lead handler rejects a
10-minute duration with a 400 ValidationError, but the student handler has no
duration bound check at all, and the identical 10-minute request succeeds
with 201 and a persisted row. -/
theorem C2_student_duration_not_validated :
    (scheduleLeadMeeting [] "7" true (some "Alice") "c1" "2024-06-01" "10:00"
        10 none).1 =
      ⟨400, false, "Duration must be between 15 minutes and 8 hours"⟩ ∧
    (scheduleStudentMeeting [] "7" true (some ("Alice", "STU-001")) "c1"
        "2024-06-01" "10:00" 10 none).1 =
      ⟨201, true, "Meeting scheduled successfully"⟩ ∧
    (scheduleStudentMeeting [] "7" true (some ("Alice", "STU-001")) "c1"
        "2024-06-01" "10:00" 10 none).2 ≠ [] := by
  refine ⟨by decide, by decide, by decide⟩

/-- C7 (scheduling atomicity): every scheduling request either fails with a
400, 404 or 409 error and leaves the Meeting Store unchanged, or succeeds
with HTTP 201, appending exactly one meeting row, which has status
Scheduled. -/
theorem C7_atomicity (store : List Meeting) (op : SchedOp) :
    ((applyOp store op).1.success = false → (applyOp store op).2 = store ∧
      ((applyOp store op).1.status = 400 ∨ (applyOp store op).1.status = 404 ∨
        (applyOp store op).1.status = 409)) ∧
    ((applyOp store op).1.success = true → (applyOp store op).1.status = 201 ∧
      (applyOp store op).2 = store ++ [op.newRow] ∧
      op.newRow.status = "Scheduled") := by
  rcases applyOp_cases store op with ⟨hst, hsf, hstat⟩ | ⟨_, _, heq⟩
  · refine ⟨fun _ => ⟨hst, hstat⟩, fun hs => ?_⟩
    rw [hsf] at hs
    cases hs
  · rw [heq]
    refine ⟨fun hs => ?_, fun _ => ⟨rfl, rfl, (newRow_fields op).2.2.2.2⟩⟩
    simp at hs

/-- Witness for C7: a concrete successful lead booking appends one Scheduled
row to the empty store. -/
theorem C7_atomicity_witness :
    (applyOp [] (SchedOp.lead "5" true (some "Alice") "c1" "2024-06-01"
        "10:00" 30 none)).1.status = 201 ∧
    (applyOp [] (SchedOp.lead "5" true (some "Alice") "c1" "2024-06-01"
        "10:00" 30 none)).2 =
      [] ++ [(SchedOp.lead "5" true (some "Alice") "c1" "2024-06-01"
        "10:00" 30 none).newRow] ∧
    (SchedOp.lead "5" true (some "Alice") "c1" "2024-06-01"
        "10:00" 30 none).newRow.status = "Scheduled" :=
  (C7_atomicity [] _).2 (by decide)

lemma applyOp_eq_overlapTail (store : List Meeting) (op : SchedOp)
    (h : op.passesPreChecks = true) :
    applyOp store op = overlapTail store op.counselorId op.meetingDate
      (parseTimeOffset op.meetingTime)
      (jsAdd (parseTimeOffset op.meetingTime) (some op.durationMinutes))
      op.newRow := by
  cases op with
  | lead lid a nm cid d t dur n =>
    obtain ⟨hc, hd', ht', h0, hd1, hd2, ha, ⟨v, rfl⟩, hbh⟩ :=
      passesPreChecks_lead h
    rw [applyOp, scheduleLead_eq_of_pre store lid a v cid d t dur n hc hd' ht'
      h0 hd1 hd2 ha]
    rw [if_neg (by simp [hbh])]
    simp only [overlapTail, SchedOp.counselorId, SchedOp.meetingDate,
      SchedOp.meetingTime, SchedOp.durationMinutes, SchedOp.newRow,
      Option.getD_some]
  | student sid a info cid d t dur n =>
    obtain ⟨hc, hd', ht', h0, ha, ⟨v, rfl⟩, hbh⟩ := passesPreChecks_student h
    rw [applyOp, scheduleStudent_eq_of_pre store sid a v cid d t dur n hc hd'
      ht' h0 ha]
    rw [if_neg (by simp [hbh])]
    simp only [overlapTail, SchedOp.counselorId, SchedOp.meetingDate,
      SchedOp.meetingTime, SchedOp.durationMinutes, SchedOp.newRow,
      Option.getD_some]

lemma overlapTail_cases (store : List Meeting) (cid d : String)
    (S E : Option Int) (row : Meeting) :
    (findConflict (listActiveMeetings store cid d) S E = none ∧
      overlapTail store cid d S E row =
        (⟨201, true, "Meeting scheduled successfully"⟩, store ++ [row])) ∨
    (∃ m, findConflict (listActiveMeetings store cid d) S E = some m ∧
      overlapTail store cid d S E row = (⟨409, false, conflictMsg m⟩, store)) := by
  unfold overlapTail
  cases hfc : findConflict (listActiveMeetings store cid d) S E with
  | none => exact Or.inl ⟨rfl, rfl⟩
  | some m => exact Or.inr ⟨m, rfl, rfl⟩

/-- C3 (conflict detection raises-iff): a request that reaches the overlap
check fails with ConflictError (409) iff some existing non-cancelled meeting
of that counselor and date satisfies the source's disjunction
`(s ≥ mStart ∧ s < mEnd) ∨ (e > mStart ∧ e ≤ mEnd) ∨ (s ≤ mStart ∧ e ≥ mEnd)`;
on 409 the message names the colliding meeting's stored start time and
duration; and permuting the stored meetings changes neither the status nor
the success of the outcome. -/
theorem C3_conflict_iff (store : List Meeting) (op : SchedOp)
    (h : op.passesPreChecks = true) :
    ((applyOp store op).1.status = 409 ↔
      ∃ m ∈ listActiveMeetings store op.counselorId op.meetingDate,
        overlapsJS (parseTimeOffset op.meetingTime)
          (jsAdd (parseTimeOffset op.meetingTime) (some op.durationMinutes))
          (mStartOf m) (mEndOf m) = true) ∧
    ((applyOp store op).1.status = 409 →
      ∃ m ∈ listActiveMeetings store op.counselorId op.meetingDate,
        overlapsJS (parseTimeOffset op.meetingTime)
          (jsAdd (parseTimeOffset op.meetingTime) (some op.durationMinutes))
          (mStartOf m) (mEndOf m) = true ∧
        (applyOp store op).1.message =
          "This time slot conflicts with an existing meeting from " ++
            m.meeting_time ++ " (" ++ toString m.duration_minutes ++
            " minutes)") ∧
    (∀ store2, store.Perm store2 →
      (applyOp store2 op).1.status = (applyOp store op).1.status ∧
      (applyOp store2 op).1.success = (applyOp store op).1.success) := by
  rw [applyOp_eq_overlapTail store op h]
  rcases overlapTail_cases store op.counselorId op.meetingDate
      (parseTimeOffset op.meetingTime)
      (jsAdd (parseTimeOffset op.meetingTime) (some op.durationMinutes))
      op.newRow with ⟨hfc, htail⟩ | ⟨m, hfc, htail⟩
  · rw [htail]
    refine ⟨⟨fun h409 => ?_, fun hex => ?_⟩, fun h409 => ?_, fun store2 hp => ?_⟩
    · simp at h409
    · obtain ⟨m, hm, hov⟩ := hex
      rw [findConflict_none_iff] at hfc
      rw [hfc m hm] at hov
      cases hov
    · simp at h409
    · rw [applyOp_eq_overlapTail store2 op h]
      have h2 : findConflict (listActiveMeetings store2 op.counselorId
          op.meetingDate) (parseTimeOffset op.meetingTime)
          (jsAdd (parseTimeOffset op.meetingTime)
            (some op.durationMinutes)) = none :=
        (findConflict_perm_none (hp.filter _)).mp hfc
      unfold overlapTail
      rw [h2]
      exact ⟨rfl, rfl⟩
  · rw [htail]
    rw [findConflict] at hfc
    have hov := List.find?_some hfc
    have hmem : m ∈ listActiveMeetings store op.counselorId op.meetingDate :=
      List.mem_of_find?_eq_some hfc
    refine ⟨⟨fun _ => ⟨m, hmem, hov⟩, fun _ => rfl⟩, fun _ => ⟨m, hmem, hov, rfl⟩,
      fun store2 hp => ?_⟩
    rw [applyOp_eq_overlapTail store2 op h]
    have h2 : findConflict (listActiveMeetings store2 op.counselorId
        op.meetingDate) (parseTimeOffset op.meetingTime)
        (jsAdd (parseTimeOffset op.meetingTime)
          (some op.durationMinutes)) ≠ none := by
      intro hn
      have hnone : findConflict (listActiveMeetings store op.counselorId
          op.meetingDate) (parseTimeOffset op.meetingTime)
          (jsAdd (parseTimeOffset op.meetingTime)
            (some op.durationMinutes)) = none :=
        (findConflict_perm_none (hp.filter _)).mpr hn
      rw [findConflict] at hnone
      rw [hnone] at hfc
      cases hfc
    obtain ⟨m2, hm2⟩ := Option.ne_none_iff_exists'.mp h2
    unfold overlapTail
    rw [hm2]
    exact ⟨rfl, rfl⟩

/-- Witness for C3: with one stored 10:00 meeting of 30 minutes, a 10:15
request for the same counselor and date is rejected with 409. -/
theorem C3_conflict_iff_witness :
    (applyOp [⟨"c1", "5", "Alice", "LEAD-5", "2024-06-01", "10:00", 30,
        "Scheduled", none⟩]
      (SchedOp.lead "6" true (some "Bob") "c1" "2024-06-01" "10:15" 30
        none)).1.status = 409 :=
  (C3_conflict_iff _ _ (by decide)).1.mpr
    ⟨⟨"c1", "5", "Alice", "LEAD-5", "2024-06-01", "10:00", 30,
        "Scheduled", none⟩, by decide, by decide⟩

lemma passesPreTimeChecks_lead {lid : String} {a : Bool} {nm : Option String}
    {cid d t : String} {dur : Int} {n : Option String}
    (h : (SchedOp.lead lid a nm cid d t dur n).passesPreTimeChecks = true) :
    cid ≠ "" ∧ d ≠ "" ∧ t ≠ "" ∧ dur ≠ 0 ∧ 15 ≤ dur ∧ dur ≤ 480 ∧ a = true ∧
      ∃ v, nm = some v := by
  simp only [SchedOp.passesPreTimeChecks, Bool.and_eq_true, Bool.not_eq_true',
    Bool.or_eq_false_iff, beq_eq_false_iff_ne, ne_eq, decide_eq_false_iff_not,
    not_lt, Option.isSome_iff_exists] at h
  obtain ⟨⟨⟨⟨⟨⟨hc, hd'⟩, ht'⟩, h0⟩, hdr⟩, ha⟩, v, hnm⟩ := h
  exact ⟨hc, hd', ht', h0, hdr.1, hdr.2, ha, v, hnm⟩

lemma passesPreTimeChecks_student {sid : String} {a : Bool}
    {info : Option (String × String)} {cid d t : String} {dur : Int}
    {n : Option String}
    (h : (SchedOp.student sid a info cid d t dur n).passesPreTimeChecks = true) :
    cid ≠ "" ∧ d ≠ "" ∧ t ≠ "" ∧ dur ≠ 0 ∧ a = true ∧ ∃ v, info = some v := by
  simp only [SchedOp.passesPreTimeChecks, Bool.and_eq_true, Bool.not_eq_true',
    Bool.or_eq_false_iff, beq_eq_false_iff_ne, ne_eq,
    Option.isSome_iff_exists] at h
  obtain ⟨⟨⟨⟨⟨hc, hd'⟩, ht'⟩, h0⟩, ha⟩, v, hnm⟩ := h
  exact ⟨hc, hd', ht', h0, ha, v, hnm⟩

/-- C4 (business-hours acceptance): a request that reaches the business-hours
check with a numerically parsed start offset `s` is rejected by that check
(400 with the business-hours message) iff not
(540 ≤ s and s + durationMinutes ≤ 1020); in particular start 1005 with
duration 15 (end exactly 1020) passes, while start 510 is rejected. -/
theorem C4_business_hours (store : List Meeting) (op : SchedOp) (s : Int)
    (hpre : op.passesPreTimeChecks = true)
    (hs : parseTimeOffset op.meetingTime = some s) :
    ((applyOp store op).1 =
        ⟨400, false, "Meetings must be scheduled between 9:00 AM and 5:00 PM"⟩
      ↔ ¬ (540 ≤ s ∧ s + op.durationMinutes ≤ 1020)) := by
  cases op with
  | lead lid a nm cid d t dur n =>
    obtain ⟨hc, hd', ht', h0, hd1, hd2, ha, v, rfl⟩ :=
      passesPreTimeChecks_lead hpre
    simp only [SchedOp.meetingTime] at hs
    simp only [SchedOp.durationMinutes]
    rw [applyOp, scheduleLead_eq_of_pre store lid a v cid d t dur n hc hd' ht'
      h0 hd1 hd2 ha, hs]
    by_cases hin : 540 ≤ s ∧ s + dur ≤ 1020
    · rw [if_neg (by simp [jsLt, jsGt, jsAdd]; omega)]
      cases hfc : findConflict (listActiveMeetings store cid d) (some s)
          (jsAdd (some s) (some dur)) with
      | none => simp [hin]
      | some m => simp [hin]
    · rw [if_pos (by simp [jsLt, jsGt, jsAdd]; omega)]
      simp [hin]
  | student sid a info cid d t dur n =>
    obtain ⟨hc, hd', ht', h0, ha, v, rfl⟩ := passesPreTimeChecks_student hpre
    simp only [SchedOp.meetingTime] at hs
    simp only [SchedOp.durationMinutes]
    rw [applyOp, scheduleStudent_eq_of_pre store sid a v cid d t dur n hc hd'
      ht' h0 ha, hs]
    by_cases hin : 540 ≤ s ∧ s + dur ≤ 1020
    · rw [if_neg (by simp [jsLt, jsGt, jsAdd]; omega)]
      cases hfc : findConflict (listActiveMeetings store cid d) (some s)
          (jsAdd (some s) (some dur)) with
      | none => simp [hin]
      | some m => simp [hin]
    · rw [if_pos (by simp [jsLt, jsGt, jsAdd]; omega)]
      simp [hin]

/-- Witness for C4: 16:45 with 15 minutes (end exactly 1020) is not rejected
by the business-hours check, while an 08:30 start (offset 510) is. -/
theorem C4_business_hours_witness :
    ¬ ((applyOp [] (SchedOp.lead "5" true (some "Alice") "c1" "2024-06-01"
        "16:45" 15 none)).1 =
      ⟨400, false, "Meetings must be scheduled between 9:00 AM and 5:00 PM"⟩) ∧
    (applyOp [] (SchedOp.lead "5" true (some "Alice") "c1" "2024-06-01"
        "08:30" 30 none)).1 =
      ⟨400, false, "Meetings must be scheduled between 9:00 AM and 5:00 PM"⟩ :=
  ⟨fun hrej =>
      (C4_business_hours [] _ 1005 (by decide) (by decide)).mp hrej
        ⟨by decide, by decide⟩,
    (C4_business_hours [] _ 510 (by decide) (by decide)).mpr (by decide)⟩

/-- C10 (malformed time slips through): when the meeting time string does not
parse to numeric hour and minute components the start offset is NaN, every
NaN comparison is false, so neither the business-hours check nor the overlap
check rejects: any request passing the checks before time parsing is inserted
with 201 and no validation error. -/
theorem C10_malformed_time_inserted (store : List Meeting) (op : SchedOp)
    (hnan : parseTimeOffset op.meetingTime = none)
    (hpre : op.passesPreTimeChecks = true) :
    applyOp store op =
      (⟨201, true, "Meeting scheduled successfully"⟩, store ++ [op.newRow]) := by
  have hall : op.passesPreChecks = true := by
    simp [SchedOp.passesPreChecks, hpre, hnan, jsLt, jsGt, jsAdd]
  rw [applyOp_eq_overlapTail store op hall, hnan]
  have hfc : findConflict (listActiveMeetings store op.counselorId
      op.meetingDate) none (jsAdd none (some op.durationMinutes)) = none := by
    rw [findConflict_none_iff]
    intro m hm
    simp [overlapsJS, jsGe, jsGt, jsLe, jsAdd]
  unfold overlapTail
  rw [hfc]

/-- Witness for C10: a request with meeting time "banana" and otherwise valid
fields is inserted successfully. -/
theorem C10_malformed_time_inserted_witness :
    applyOp [] (SchedOp.lead "5" true (some "Alice") "c1" "2024-06-01"
        "banana" 30 none) =
      (⟨201, true, "Meeting scheduled successfully"⟩,
        [] ++ [(SchedOp.lead "5" true (some "Alice") "c1" "2024-06-01"
          "banana" 30 none).newRow]) :=
  C10_malformed_time_inserted [] _ (by decide) (by decide)

/-- C8 counterexample: for the malformed date "2024-13-99" the availability
endpoint returns HTTP 200 success, not the InvalidInput failure the claim
requires for malformed dates. -/
theorem C8_malformed_date_not_rejected :
    (availableSlots [] "c1" "2024-13-99").1.status = 200 ∧
    (availableSlots [] "c1" "2024-13-99").1.success = true :=
  ⟨by decide, by decide⟩

/-- C8 amended: the availability endpoint fails with 400 InvalidInput exactly
when the date parameter is missing (falsy); every non-empty date string,
well-formed or not, yields a 200 success response. -/
theorem C8_date_presence_only (store : List Meeting) (cid date : String) :
    (((availableSlots store cid date).1.status = 400 ∧
        (availableSlots store cid date).1.success = false) ↔ date = "") ∧
    (((availableSlots store cid date).1.status = 200 ∧
        (availableSlots store cid date).1.success = true) ↔ date ≠ "") := by
  unfold availableSlots
  by_cases hd : date = ""
  · rw [if_pos hd]
    simp [hd]
  · rw [if_neg hd]
    simp [hd]

/-- C9 counterexample: two successful schedulings differing only in the
subject's display name return identical responses, a fixed success message;
the response carries neither the created meeting's identifier nor the
subject's display name. -/
theorem C9_response_carries_no_identifier :
    (scheduleLeadMeeting [] "5" true (some "Alice") "c1" "2024-06-01" "10:00"
        30 none).1 =
      (scheduleLeadMeeting [] "5" true (some "Bob") "c1" "2024-06-01" "10:00"
        30 none).1 ∧
    (scheduleLeadMeeting [] "5" true (some "Alice") "c1" "2024-06-01" "10:00"
        30 none).1 = ⟨201, true, "Meeting scheduled successfully"⟩ :=
  ⟨by decide, by decide⟩

lemma subjectName_of_pre {op : SchedOp} (h : op.passesPreChecks = true) :
    op.subjectName = some op.newRow.student_name := by
  cases op with
  | lead lid a nm cid d t dur n =>
    obtain ⟨_, _, _, _, _, _, _, ⟨v, rfl⟩, _⟩ := passesPreChecks_lead h
    simp [SchedOp.subjectName, SchedOp.newRow]
  | student sid a info cid d t dur n =>
    obtain ⟨_, _, _, _, _, ⟨v, rfl⟩, _⟩ := passesPreChecks_student h
    simp [SchedOp.subjectName, SchedOp.newRow]

lemma applyOp_take (st : List Meeting) (op2 : SchedOp) :
    ((applyOp st op2).2).take st.length = st := by
  rcases applyOp_cases st op2 with ⟨hst, _⟩ | ⟨_, _, heq⟩
  · rw [hst, List.take_length]
  · rw [heq]
    exact List.take_left st [op2.newRow]

/-- C9 amended: on success the response is only the fixed success message
(no identifier or name), while the inserted row snapshots the subject's
display name at persist time; stored rows are never modified by later
scheduling requests, so a later subject rename cannot change the stored
name. -/
theorem C9_subject_name_snapshot (store : List Meeting) (op : SchedOp)
    (h : (applyOp store op).1.success = true) :
    (applyOp store op).1.message = "Meeting scheduled successfully" ∧
    (∃ nm, op.subjectName = some nm ∧
      (applyOp store op).2 = store ++ [op.newRow] ∧
      op.newRow.student_name = nm) ∧
    (∀ op2, ((applyOp (applyOp store op).2 op2).2).take
        (applyOp store op).2.length = (applyOp store op).2) := by
  rcases applyOp_cases store op with ⟨_, hsf, _⟩ | ⟨hpre, _, heq⟩
  · rw [hsf] at h
    cases h
  · refine ⟨by rw [heq], ⟨op.newRow.student_name, subjectName_of_pre hpre,
      by rw [heq], rfl⟩, fun op2 => applyOp_take _ op2⟩

/-- Witness for C9's amended theorem: a concrete successful student booking
returns the fixed success message. -/
theorem C9_subject_name_snapshot_witness :
    (applyOp [] (SchedOp.student "9" true (some ("Cara", "STU-002")) "c1"
        "2024-06-01" "09:00" 60 none)).1.message =
      "Meeting scheduled successfully" :=
  (C9_subject_name_snapshot [] _ (by decide)).1

/-- C6 (availability output): for every counselor and non-empty date the
availability endpoint succeeds (also when there are no bookings, where it
returns the empty sequence, not an error), returning exactly one
(start, end) pair per non-cancelled meeting of that counselor and date —
start recomputed as hour*60+minute from the stored time, end = start plus the
stored duration — ordered by ascending start offset. -/
theorem C6_availability_output (store : List Meeting) (cid date : String)
    (hdate : date ≠ "") :
    (availableSlots store cid date).1 = ⟨200, true, ""⟩ ∧
    ((availableSlots store cid date).2).Perm
      ((listActiveMeetings store cid date).map fun m =>
        (mStartOf m, mEndOf m)) ∧
    ((availableSlots store cid date).2).Pairwise
      (fun p q => ∀ x y, p.1 = some x → q.1 = some y → x ≤ y) ∧
    (listActiveMeetings store cid date = [] →
      (availableSlots store cid date).2 = []) := by
  unfold availableSlots
  rw [if_neg hdate]
  refine ⟨rfl, ?_, ?_, ?_⟩
  · exact (List.perm_insertionSort timeLE _).map _
  · simp only [bookedSlots, sortByTime]
    have hs := List.sorted_insertionSort timeLE
      (listActiveMeetings store cid date)
    refine List.pairwise_map.mpr (hs.imp ?_)
    intro a b hab x y hx hy
    have hx' : mStartOf a = some x := hx
    have hy' : mStartOf b = some y := hy
    unfold timeLE obLEb at hab
    rw [hx', hy'] at hab
    simpa using hab
  · intro h
    simp [bookedSlots, sortByTime, h]

/-- Witness for C6: a concrete store whose two bookings are listed in
ascending order by the endpoint. -/
theorem C6_availability_output_witness :
    (availableSlots
      [⟨"c1", "5", "Alice", "LEAD-5", "2024-06-01", "11:00", 30, "Scheduled",
          none⟩,
       ⟨"c1", "6", "Bob", "LEAD-6", "2024-06-01", "09:30", 45, "Scheduled",
          none⟩]
      "c1" "2024-06-01").1 = ⟨200, true, ""⟩ :=
  (C6_availability_output _ "c1" "2024-06-01" (by decide)).1

lemma passesPreChecks_fields {op : SchedOp} (h : op.passesPreChecks = true) :
    op.counselorId ≠ "" ∧ op.meetingDate ≠ "" ∧ op.meetingTime ≠ "" := by
  cases op with
  | lead lid a nm cid d t dur n =>
    obtain ⟨hc, hd', ht', _⟩ := passesPreChecks_lead h
    exact ⟨hc, hd', ht'⟩
  | student sid a info cid d t dur n =>
    obtain ⟨hc, hd', ht', _⟩ := passesPreChecks_student h
    exact ⟨hc, hd', ht'⟩

lemma count_of_perm {α : Type} [BEq α] {l1 l2 : List α} (s : l1.Perm l2)
    (a : α) : l1.count a = l2.count a :=
  s.countP_eq _

lemma listActive_append_row (store : List Meeting) (r : Meeting)
    (cid d : String) (h1 : r.counselor_id = cid) (h2 : r.meeting_date = d)
    (h3 : r.status ≠ "Cancelled") :
    listActiveMeetings (store ++ [r]) cid d =
      listActiveMeetings store cid d ++ [r] := by
  rw [listActiveMeetings, List.filter_append, listActiveMeetings]
  congr 1
  simp [List.filter_cons, h1, h2, h3, bne_iff_ne]

/-- C5 (P4, availability round-trip): when a scheduling request succeeds with
numerically parsed start offset S and duration D, the availability endpoint
for that counselor and date, run on the updated store, succeeds and its
result contains the pair (S, S+D) exactly once. -/
theorem C5_availability_roundtrip (store : List Meeting) (op : SchedOp)
    (S : Int) (hs : parseTimeOffset op.meetingTime = some S)
    (hsucc : (applyOp store op).1.success = true) :
    (availableSlots (applyOp store op).2 op.counselorId
        op.meetingDate).1.success = true ∧
    ((availableSlots (applyOp store op).2 op.counselorId
        op.meetingDate).2).count
      (some S, some (S + op.durationMinutes)) = 1 := by
  rcases applyOp_cases store op with ⟨_, hsf, _⟩ | ⟨hpre, hfc, heq⟩
  · rw [hsf] at hsucc
    cases hsucc
  obtain ⟨hcid, hdate, _⟩ := passesPreChecks_fields hpre
  obtain ⟨hrc, hrd, hrt, hrdm, hrs⟩ := newRow_fields op
  rw [heq]
  dsimp only
  unfold availableSlots
  rw [if_neg hdate]
  refine ⟨rfl, ?_⟩
  dsimp only
  rw [bookedSlots, sortByTime]
  rw [count_of_perm ((List.perm_insertionSort timeLE _).map _)]
  rw [listActive_append_row store op.newRow op.counselorId op.meetingDate hrc
    hrd (by rw [hrs]; decide)]
  have hfr : (mStartOf op.newRow, mEndOf op.newRow) =
      ((some S : Option Int), (some (S + op.durationMinutes) : Option Int)) := by
    rw [mEndOf, mStartOf, hrt, hrdm, hs]
    simp [jsAdd]
  rw [List.map_append, List.count_append]
  have h0 : ((listActiveMeetings store op.counselorId op.meetingDate).map
      fun m => (mStartOf m, mEndOf m)).count
      (some S, some (S + op.durationMinutes)) = 0 := by
    rw [List.count_eq_zero]
    intro hmem
    obtain ⟨m, hm, hfm⟩ := List.mem_map.mp hmem
    have hov : overlapsJS (parseTimeOffset op.meetingTime)
        (jsAdd (parseTimeOffset op.meetingTime) (some op.durationMinutes))
        (mStartOf m) (mEndOf m) = true := by
      rw [hs]
      have h1 := congrArg Prod.fst hfm
      have h2 := congrArg Prod.snd hfm
      simp only [] at h1 h2
      rw [show jsAdd (some S) (some op.durationMinutes) =
        some (S + op.durationMinutes) from rfl]
      exact overlaps_of_eq_slot h1 h2
    rw [findConflict_none_iff] at hfc
    rw [hfc m hm] at hov
    cases hov
  rw [h0]
  simp only [List.map_cons, List.map_nil, hfr]
  simp

/-- Witness for C5: after booking 10:00 for 30 minutes on the empty store,
the availability result contains (600, 630) exactly once. -/
theorem C5_availability_roundtrip_witness :
    ((availableSlots (applyOp [] (SchedOp.lead "5" true (some "Alice") "c1"
        "2024-06-01" "10:00" 30 none)).2 (SchedOp.lead "5" true (some "Alice")
        "c1" "2024-06-01" "10:00" 30 none).counselorId
        (SchedOp.lead "5" true (some "Alice") "c1" "2024-06-01" "10:00" 30
          none).meetingDate).2).count
      (some 600, some (600 + (SchedOp.lead "5" true (some "Alice") "c1"
        "2024-06-01" "10:00" 30 none).durationMinutes)) = 1 :=
  (C5_availability_roundtrip [] _ 600 (by decide) (by decide)).2

end UniLink
